import Mathlib

/-!
Verification of the multi-document knowledge-graph builder
(`advanced_graph_builder.py`) against its natural-language specification.

The Python source is shallowly embedded: the builder's mutable state
(`self.nodes`, `self.edges`) becomes explicit values threaded through the
phase functions; Python dicts become ordered association lists with
insert-or-replace semantics; the wall clock (`datetime.now()`) becomes an
explicit `now : String` parameter; JSON chunk records become the `Chunk`
structure.  String operations used by the source (single-character
`str.replace`, `str.lower`, `str.upper`, `str.split()`, `str.strip`,
substring membership `in`) are defined at the character-list level so that
every definition evaluates inside the kernel.
-/

namespace AGB

/-! ## Character-level string helpers (Python string operations) -/

/-- Python `s.replace(c, r)` for a one-character pattern `c`
(the source only ever replaces single-character patterns). -/
def replaceChar (s : String) (c : Char) (r : String) : String :=
  String.mk (s.data.flatMap (fun a => if a = c then r.data else [a]))

/-- Python `s.upper()` (ASCII, which covers all inputs in scope). -/
def upperStr (s : String) : String :=
  String.mk (s.data.map Char.toUpper)

/-- Python `s.lower()` (ASCII, which covers all inputs in scope). -/
def lowerStr (s : String) : String :=
  String.mk (s.data.map Char.toLower)

/-- Python `needle in hay` substring membership. -/
def isSubstr (needle hay : String) : Bool :=
  hay.data.tails.any (fun t => needle.data.isPrefixOf t)

/-- Python `s.strip()`: remove leading and trailing whitespace. -/
def stripStr (s : String) : String :=
  String.mk (((s.data.dropWhile Char.isWhitespace).reverse.dropWhile
    Char.isWhitespace).reverse)

/-- Auxiliary for Python `s.split()`: split on whitespace runs,
dropping empty pieces; `acc` holds the current word reversed. -/
def splitWsAux : List Char → List Char → List String
  | [], acc => if acc.isEmpty then [] else [String.mk acc.reverse]
  | c :: rest, acc =>
    if c.isWhitespace then
      if acc.isEmpty then splitWsAux rest []
      else String.mk acc.reverse :: splitWsAux rest []
    else splitWsAux rest (c :: acc)

/-- Python `s.split()` with no argument. -/
def splitWs (s : String) : List String := splitWsAux s.data []

/-- Python `" ".join(parts)`. -/
def joinSpace : List String → String
  | [] => ""
  | [x] => x
  | x :: y :: rest => x ++ " " ++ joinSpace (y :: rest)

/-- Python `s[:n]` (first `n` characters). -/
def takeChars (s : String) (n : Nat) : String := String.mk (s.data.take n)

/-- Python set-`update` order abstraction: deduplicate a list keeping
first occurrences (the source stores raw citation matches in a `set`;
its iteration order is abstracted here as first-encounter order). -/
def dedupFirst (l : List String) : List String :=
  l.foldl (fun acc m => if acc.contains m then acc else acc ++ [m]) []

/-- Two-digit zero-padded ordinal, Python `f"{i:02d}"` for `i ≥ 0`. -/
def pad2 (n : Nat) : String :=
  if n < 10 then "0" ++ n.repr else n.repr

/-! ## Data model -/

/-- A JSON scalar as it can appear in a chunk's `parent_id` field
(`None`, a string, or a number). -/
inductive PVal where
  | null
  | str (s : String)
  | int (n : Int)
deriving DecidableEq

/-- Python truthiness of a `parent_id` value (`if parent_clause_id:`). -/
def PVal.truthy : PVal → Bool
  | .null => false
  | .str s => !(s == "")
  | .int n => !(n == 0)

/-- Python equality `v == s` between a `parent_id` value and a stored
string `clause_id` (numbers and `None` never equal a string). -/
def PVal.eqStr : PVal → String → Bool
  | .str t, s => t == s
  | _, _ => false

/-- One extracted requirement record inside a chunk
(`req.get('text','')`, `req.get('type','unknown')`, `req.get('keyword','')`). -/
structure ReqRecord where
  text : String := ""
  rtype : String := "unknown"
  keyword : String := ""
deriving DecidableEq

/-- One chunk record as loaded from a per-document JSON file.  `content`
holds the `text` field of each content part (`c.get('text','')`);
`source_file` models the `_source_file` path attached at load time;
structure defaults model the `chunk.get(key, default)` calls. -/
structure Chunk where
  chunk_id : String
  document_id : String
  title : String := "Untitled"
  parent_id : PVal := .null
  level : Int := 1
  content : List String := []
  requirements : List ReqRecord := []
  source_file : String := ""
deriving DecidableEq

/-- A graph node.  The source stores nodes as dicts whose key set depends
on the node type; here one structure carries all fields, with the fields
a given type never sets left at their defaults. -/
structure Node where
  id : String
  type : String
  document_id : String := ""
  label : String := ""
  created_at : String := ""
  clause_id : String := ""
  title : String := ""
  level : Int := 1
  parent_id : PVal := .null
  text : String := ""
  full_text : String := ""
  text_hash : String := ""
  source_file : String := ""
  chunk_index : Nat := 0
  requirement_type : String := ""
  keyword : String := ""
  obligation_level : String := ""
  parent_clause : String := ""
deriving DecidableEq

/-- An edge `(source, target, relationship)` as appended to `self.edges`. -/
abbrev Edge := String × String × String

/-- The node registry `self.nodes`: a Python dict modelled as an ordered
association list (insertion order, insert-or-replace in place). -/
abbrev Registry := List (String × Node)

/-- Python `d[k] = v`: replace in place if the key exists, else append. -/
def Registry.insert (r : Registry) (k : String) (v : Node) : Registry :=
  if r.any (fun p => p.1 == k) then
    r.map (fun p => if p.1 == k then (k, v) else p)
  else r ++ [(k, v)]

/-- Python `d.get(k)` / `d[k]` lookup. -/
def Registry.find (r : Registry) (k : String) : Option Node :=
  (r.find? (fun p => p.1 == k)).map Prod.snd

/-- Python `d.values()` in insertion order. -/
def Registry.values (r : Registry) : List Node := r.map Prod.snd

/-- One loaded document directory: its name and its chunks in
lexically-sorted file order (load failures already dropped, as the
loader catches and skips them). -/
structure DocumentDir where
  name : String
  chunks : List Chunk
deriving DecidableEq

/-- All chunks of all documents in load order (`self.all_chunks`). -/
def allChunksOf (input : List DocumentDir) : List Chunk :=
  (input.map DocumentDir.chunks).flatten

/-! ## Node and id construction -/

/-- `generate_node_id`: deterministic node id from document id, chunk id
and node type (`doc.replace("/","_").replace(" ","_")` and
`chunk.replace(".","_")`). -/
def generate_node_id (document_id chunk_id node_type : String) : String :=
  let doc := replaceChar (replaceChar document_id '/' "_") ' ' "_"
  let chunk := replaceChar chunk_id '.' "_"
  doc ++ "_" ++ node_type ++ "_" ++ chunk

/-- Hex digit for a nibble. -/
def hexDigit (n : Nat) : Char :=
  if n < 10 then Char.ofNat (48 + n) else Char.ofNat (97 + (n - 10))

/-- Fixed-width hex rendering, low nibble last. -/
def toHex16 (v : Nat) : String :=
  String.mk ((List.range 16).map
    (fun i => hexDigit ((v / 16 ^ (15 - i)) % 16)))

/-- Modelled from the spec: `calculate_hash` truncates an
external-library cryptographic digest (`hashlib.sha256(...).hexdigest()[:16]`,
code not part of this repository) to a 16-hex-character content
fingerprint.  It is modelled as a deterministic 16-hex-character digest
of the text; no claim depends on the digest function beyond it being a
fixed function of the text with this shape. -/
def calculate_hash (text : String) : String :=
  toHex16 (text.data.foldl (fun h c => (h * 131 + c.toNat) % 2 ^ 64) 5381)

/-- `_get_obligation_level`: map a requirement keyword (case-insensitive)
to an obligation level, defaulting to `UNKNOWN`. -/
def _get_obligation_level (keyword : String) : String :=
  let k := lowerStr keyword
  if k == "shall" then "MANDATORY"
  else if k == "must" then "MANDATORY"
  else if k == "should" then "RECOMMENDED"
  else if k == "may" then "OPTIONAL"
  else if k == "can" then "OPTIONAL"
  else "UNKNOWN"

/-- The Standard (root) node created for a document
(`created_at` is `datetime.now().isoformat()`, passed in as `now`). -/
def standardNode (now : String) (document_id : String) : Node :=
  { id := "STANDARD_" ++ document_id
    type := "Standard"
    document_id := document_id
    label := replaceChar document_id '_' " "
    created_at := now }

/-- `build_standard_nodes`: one Standard node per loaded document, in
document load order. -/
def build_standard_nodes (now : String) (docs : List String) (r : Registry) :
    Registry :=
  docs.foldl (fun r d => r.insert ("STANDARD_" ++ d) (standardNode now d)) r

/-- The clause node id generated for a chunk. -/
def clause_node_id (c : Chunk) : String :=
  generate_node_id c.document_id c.chunk_id "CLAUSE"

/-- The Clause node built from a chunk at 1-based position `idx` in
`self.all_chunks`. -/
def clauseNode (idx : Nat) (c : Chunk) : Node :=
  let full_text := joinSpace c.content
  { id := clause_node_id c
    type := "Clause"
    clause_id := c.chunk_id
    document_id := c.document_id
    title := c.title
    level := c.level
    parent_id := c.parent_id
    text := takeChars full_text 500
    full_text := full_text
    text_hash := calculate_hash full_text
    source_file := c.source_file
    chunk_index := idx }

/-- Loop body of `build_clause_nodes`, threading the 1-based enumeration
index. -/
def bcnAux : Nat → List Chunk → Registry → Registry
  | _, [], r => r
  | idx, c :: cs, r =>
    bcnAux (idx + 1) cs (r.insert (clause_node_id c) (clauseNode idx c))

/-- `build_clause_nodes`: one Clause node per chunk, `enumerate(..., 1)`. -/
def build_clause_nodes (chunks : List Chunk) (r : Registry) : Registry :=
  bcnAux 1 chunks r

/-- The log lines `build_clause_nodes` emits (message text only; the
logger prepends a timestamp).  The phase logs a progress line at every
50th chunk and one final count line; every message depends only on the
index and the total chunk count. -/
def build_clause_nodes_log (chunks : List Chunk) : List String :=
  ((List.range chunks.length).filterMap (fun i =>
    if (i + 1) % 50 == 0 then
      some ("[" ++ (i + 1).repr ++ "/" ++ chunks.length.repr ++ "] Created " ++
        (i + 1).repr ++ " clauses...")
    else none)) ++
  ["Created " ++ chunks.length.repr ++ " CLAUSE nodes"]

/-- The Requirement node built from requirement record `req` at 1-based
position `ridx` inside chunk `c`. -/
def requirementNode (c : Chunk) (ridx : Nat) (req : ReqRecord) : Node :=
  { id := generate_node_id c.document_id
      (c.chunk_id ++ "_REQ" ++ pad2 ridx) "REQ"
    type := "Requirement"
    requirement_type := req.rtype
    keyword := req.keyword
    text := req.text
    text_hash := calculate_hash req.text
    parent_clause := c.chunk_id
    document_id := c.document_id
    obligation_level := _get_obligation_level req.keyword }

/-- Inner loop of `build_requirement_nodes` over one chunk's
requirement records, `enumerate(..., 1)`. -/
def brnChunk (c : Chunk) : Nat → List ReqRecord → Registry → Registry
  | _, [], r => r
  | ridx, q :: qs, r =>
    brnChunk c (ridx + 1) qs (r.insert (requirementNode c ridx q).id
      (requirementNode c ridx q))

/-- `build_requirement_nodes`: requirement nodes for every chunk that
carries requirement records. -/
def build_requirement_nodes (chunks : List Chunk) (r : Registry) : Registry :=
  chunks.foldl (fun r c => brnChunk c 1 c.requirements r) r

/-! ## Structural edges -/

/-- `_find_clause_node_by_id`: first registry entry that is a Clause with
the given `clause_id` and `document_id`, returning its node id. -/
def find_clause_node_by_id (nodes : Registry) (clause_id : PVal)
    (document_id : String) : Option String :=
  (nodes.find? (fun p =>
    p.2.type == "Clause" && clause_id.eqStr p.2.clause_id &&
      p.2.document_id == document_id)).map Prod.fst

/-- The `standard_nodes` dict comprehension of `build_structural_edges`,
looked up at one document id: it maps each `document_id` to the id of the
last Standard node carrying it. -/
def find_standard_node (nodes : Registry) (doc : String) : Option String :=
  ((nodes.filter (fun p =>
    p.2.type == "Standard" && p.2.document_id == doc)).map Prod.fst).getLast?

/-- The at-most-one structural edge the Clause loop of
`build_structural_edges` emits for one registry entry. -/
def clause_edge_for (nodes : Registry) (p : String × Node) : Option Edge :=
  if p.2.type == "Clause" then
    if p.2.parent_id.truthy then
      (find_clause_node_by_id nodes p.2.parent_id p.2.document_id).map
        (fun par => (par, p.1, "HAS_SUBCLAUSE"))
    else
      (find_standard_node nodes p.2.document_id).map
        (fun s => (s, p.1, "HAS_CLAUSE"))
  else none

/-- The at-most-one containment edge the Requirement loop of
`build_structural_edges` emits for one registry entry. -/
def req_edge_for (nodes : Registry) (p : String × Node) : Option Edge :=
  if p.2.type == "Requirement" then
    (find_clause_node_by_id nodes (.str p.2.parent_clause)
      p.2.document_id).map (fun par => (par, p.1, "CONTAINS_REQUIREMENT"))
  else none

/-- `build_structural_edges`: the Clause loop's edges followed by the
Requirement loop's edges, each in registry order. -/
def build_structural_edges (nodes : Registry) : List Edge :=
  nodes.filterMap (clause_edge_for nodes) ++ nodes.filterMap (req_edge_for nodes)

/-! ## Cross-document references

The source scans clause text with four fixed `re.findall` patterns, each
an issuing-body word sequence followed by `\s+\d+[-\d]*`, matched
case-insensitively, leftmost and non-overlapping.  The matcher below
implements exactly these patterns over character lists (the patterns need
no backtracking: each greedy run is followed by a disjoint character
class). -/

/-- Consume one pattern word case-insensitively. -/
def dropWordCI : List Char → List Char → Option (List Char)
  | [], cs => some cs
  | _ :: _, [] => none
  | w :: ws, c :: cs =>
    if w.toLower == c.toLower then dropWordCI ws cs else none

/-- Consume `\s+` then each remaining pattern word. -/
def dropRestWordsCI : List String → List Char → Option (List Char)
  | [], cs => some cs
  | w :: ws, cs =>
    let sp := cs.takeWhile Char.isWhitespace
    if sp.isEmpty then none
    else
      match dropWordCI w.data (cs.dropWhile Char.isWhitespace) with
      | some cs2 => dropRestWordsCI ws cs2
      | none => none

/-- Consume the numeric designator `\s+\d+[-\d]*`. -/
def dropDesignator (cs : List Char) : Option (List Char) :=
  let sp := cs.takeWhile Char.isWhitespace
  if sp.isEmpty then none
  else
    let cs1 := cs.dropWhile Char.isWhitespace
    let ds := cs1.takeWhile Char.isDigit
    if ds.isEmpty then none
    else some ((cs1.dropWhile Char.isDigit).dropWhile
      (fun c => c.isDigit || c == '-'))

/-- Try one citation pattern at the head of `cs`; on success return the
number of characters matched (always at least one). -/
def matchCitation (words : List String) (cs : List Char) : Option Nat :=
  match words with
  | [] => none
  | w :: ws =>
    match dropWordCI w.data cs with
    | none => none
    | some cs1 =>
      match dropRestWordsCI ws cs1 with
      | none => none
      | some cs2 =>
        match dropDesignator cs2 with
        | none => none
        | some rest => some (cs.length - rest.length)

/-- `re.findall` for one citation pattern: scan left to right, take
non-overlapping leftmost matches.  `fuel` bounds the scan by the text
length. -/
def findallAux (words : List String) : Nat → List Char → List String
  | 0, _ => []
  | _, [] => []
  | fuel + 1, c :: rest =>
    match matchCitation words (c :: rest) with
    | some n =>
      if n == 0 then findallAux words fuel rest
      else String.mk ((c :: rest).take n) ::
        findallAux words fuel (rest.drop (n - 1))
    | none => findallAux words fuel rest

/-- `re.findall(pattern, text, re.IGNORECASE)` for one citation pattern. -/
def findall (words : List String) (text : String) : List String :=
  findallAux words text.data.length text.data

/-- The four citation patterns, as their word lists
(`EN`, `BS EN`, `IEC`, `ISO`, each then `\s+\d+[-\d]*`). -/
def citationWordLists : List (List String) :=
  [["EN"], ["BS", "EN"], ["IEC"], ["ISO"]]

/-- The per-clause raw citation matches in scan order: all four
patterns' matches, stripped, duplicates and all (the elements the
source inserts into its `refs` set, in insertion order). -/
def raw_refs (text : String) : List String :=
  (citationWordLists.map (fun ws => (findall ws text).map stripStr)).flatten

/-- The per-clause distinct raw citation matches (the *contents* of the
source's `refs` set), in first-encounter order — one valid iteration
order of that set. -/
def refs_of (text : String) : List String :=
  dedupFirst (raw_refs text)

/-- Citation-side normalization:
`ref.replace(" ", "_").replace(":", "").upper()`. -/
def normalize_ref (ref : String) : String :=
  upperStr (replaceChar (replaceChar ref ' ' "_") ':' "")

/-- Document-side normalization: `doc_id.replace("_", "").upper()`. -/
def normalize_doc (doc : String) : String :=
  upperStr (replaceChar doc '_' "")

/-- `detect_cross_references`: for every Clause node, every distinct raw
match and every known document id, emit a REFERENCES edge when the
bidirectional substring test on the two normalized strings succeeds and
the target Standard node exists. -/
def detect_cross_references (nodes : Registry) (docs : List String) :
    List Edge :=
  ((nodes.values.filter (fun n => n.type == "Clause")).map (fun node =>
    ((refs_of node.full_text).map (fun ref =>
      docs.filterMap (fun doc_id =>
        if (isSubstr (normalize_doc doc_id) (normalize_ref ref) ||
            isSubstr (normalize_ref ref) (normalize_doc doc_id)) &&
           nodes.any (fun p => p.1 == "STANDARD_" ++ doc_id) then
          some (node.id, "STANDARD_" ++ doc_id, "REFERENCES")
        else none))).flatten)).flatten

/-! ## Semantic similarity -/

/-- The stop words removed before the overlap computation. -/
def common_words : Finset String :=
  (["the", "a", "an", "and", "or", "but", "in", "on", "at",
    "to", "for", "of", "with", "by", "from", "is", "are",
    "was", "were", "be", "been", "being", "have", "has", "had"]).toFinset

/-- The token set of a text: lower-cased, whitespace-split, stop words
removed. -/
def tokenSet (text : String) : Finset String :=
  (splitWs (lowerStr text)).toFinset \ common_words

/-- `_calculate_similarity`: keyword-overlap Jaccard score as an exact
rational (the source computes the same quotient `intersection / union`
in floating point; `mkRat i u` is that quotient, written in the
kernel-evaluable normal form — `Rat.mkRat_eq_div` relates the two). -/
def _calculate_similarity (text1 text2 : String) : ℚ :=
  let words1 := tokenSet text1
  let words2 := tokenSet text2
  if words1 = ∅ ∨ words2 = ∅ then 0
  else
    let i := (words1 ∩ words2).card
    let u := (words1 ∪ words2).card
    if 0 < u then mkRat i u else 0

/-- Inner loop of `detect_semantic_similarities` for a fixed `node1` over
the strictly subsequent clauses, threading the emitted-edge count and
breaking as soon as the count reaches `maxLinks`. -/
def simInner (thr : ℚ) (maxLinks : Nat) (c1 : Node) :
    List Node → Nat → List Edge × Nat
  | [], cnt => ([], cnt)
  | c2 :: rest, cnt =>
    if c1.document_id == c2.document_id then simInner thr maxLinks c1 rest cnt
    else if c1.full_text == "" || c2.full_text == "" then
      simInner thr maxLinks c1 rest cnt
    else if thr ≤ _calculate_similarity c1.full_text c2.full_text then
      if maxLinks ≤ cnt + 1 then ([(c1.id, c2.id, "SIMILAR_TO")], cnt + 1)
      else
        let r := simInner thr maxLinks c1 rest (cnt + 1)
        ((c1.id, c2.id, "SIMILAR_TO") :: r.1, r.2)
    else simInner thr maxLinks c1 rest cnt

/-- Outer loop of `detect_semantic_similarities`: enumerate clauses in
load order, breaking before a clause once the cap is reached. -/
def simOuter (thr : ℚ) (maxLinks : Nat) :
    List Node → Nat → List Edge × Nat
  | [], cnt => ([], cnt)
  | c1 :: rest, cnt =>
    if maxLinks ≤ cnt then ([], cnt)
    else
      let r1 := simInner thr maxLinks c1 rest cnt
      let r2 := simOuter thr maxLinks rest r1.2
      (r1.1 ++ r2.1, r2.2)

/-- `detect_semantic_similarities` on a clause list. -/
def detect_semantic_similarities (clauses : List Node) (thr : ℚ)
    (maxLinks : Nat) : List Edge :=
  (simOuter thr maxLinks clauses 0).1

/-- The document-distinct unordered clause pairs in the fixed traversal
order of the similarity phase: outer loop in load order, inner loop over
strictly subsequent clauses (before any filtering). -/
def orderedPairs : List Node → List (Node × Node)
  | [] => []
  | c :: rest => rest.map (fun c2 => (c, c2)) ++ orderedPairs rest

/-- A clause pair qualifies for a SIMILAR_TO edge: different documents,
both texts non-empty, similarity at least the threshold. -/
def qualifies (thr : ℚ) (c1 c2 : Node) : Bool :=
  !(c1.document_id == c2.document_id) &&
  !(c1.full_text == "" || c2.full_text == "") &&
  decide (thr ≤ _calculate_similarity c1.full_text c2.full_text)

/-- The SIMILAR_TO edge for a qualifying pair. -/
def simEdge (p : Node × Node) : Edge := (p.1.id, p.2.id, "SIMILAR_TO")

/-! ## Build orchestration and export -/

/-- The clause nodes of a registry in insertion order (the
`clause_nodes` list both detection phases build). -/
def clausesOf (r : Registry) : List Node :=
  r.values.filter (fun n => n.type == "Clause")

/-- `build_graph`: the full pipeline.  Returns the success flag together
with the final node registry and edge sequence (the builder's
`self.nodes` and `self.edges`); aborts before node creation when zero
chunks were loaded.  `now` is the build timestamp `datetime.now()`
reads. -/
def build_graph (now : String) (input : List DocumentDir) :
    Bool × Registry × List Edge :=
  let docs := input.map DocumentDir.name
  let chunks := allChunksOf input
  if chunks.length == 0 then (false, [], [])
  else
    let r1 := build_standard_nodes now docs []
    let r2 := build_clause_nodes chunks r1
    let r3 := build_requirement_nodes chunks r2
    let e1 := build_structural_edges r3
    let e2 := detect_cross_references r3 docs
    let e3 := detect_semantic_similarities (clausesOf r3) (mkRat 3 10) 200
    (true, r3, e1 ++ e2 ++ e3)

/-- The graph artifact `export_to_json` writes. -/
structure GraphExport where
  created_at : String
  node_count : Nat
  edge_count : Nat
  document_count : Nat
  chunk_count : Nat
  documents : List String
  nodes : List Node
  edges : List Edge
deriving DecidableEq

/-- `main`: run the build and, only on success, write the artifacts
(`none` models that neither the graph file nor the log file is
written on failure). -/
def run_main (now : String) (input : List DocumentDir) : Option GraphExport :=
  let res := build_graph now input
  if res.1 then
    some { created_at := now
           node_count := res.2.1.length
           edge_count := res.2.2.length
           document_count := input.length
           chunk_count := (allChunksOf input).length
           documents := input.map DocumentDir.name
           nodes := res.2.1.values
           edges := res.2.2 }
  else none

/-! ## Registry lemmas -/

/-- Lookup after a dict write: the written key now maps to the new value,
every other key is untouched. -/
theorem registry_find_insert (r : Registry) (k k2 : String) (v : Node) :
    (r.insert k v).find k2 = if k2 = k then some v else r.find k2 := by
  unfold Registry.insert Registry.find
  by_cases hany : r.any (fun p => p.1 == k) = true
  · rw [if_pos hany, List.find?_map]
    by_cases hk : k2 = k
    · subst hk
      have hpred : ((fun p : String × Node => p.1 == k2) ∘
          (fun p => if p.1 == k2 then (k2, v) else p)) =
          fun p : String × Node => p.1 == k2 := by
        funext p
        by_cases h : p.1 = k2 <;> simp [h]
      rw [hpred, if_pos rfl]
      obtain ⟨q, hq, hqk⟩ := List.any_eq_true.mp hany
      have hsome : (r.find? (fun p : String × Node => p.1 == k2)).isSome :=
        List.find?_isSome.mpr ⟨q, hq, hqk⟩
      obtain ⟨q2, hq2⟩ := Option.isSome_iff_exists.mp hsome
      have hq2k : q2.1 = k2 := by simpa using List.find?_some hq2
      rw [hq2]
      simp [hq2k]
    · rw [if_neg hk]
      have hpred : ((fun p : String × Node => p.1 == k2) ∘
          (fun p => if p.1 == k then (k, v) else p)) =
          fun p : String × Node => p.1 == k2 := by
        funext p
        by_cases h : p.1 = k
        · simp [h, Ne.symm hk]
        · simp [h]
      rw [hpred]
      cases hfind : r.find? (fun p : String × Node => p.1 == k2) with
      | none => simp
      | some q =>
        have hq1 : q.1 = k2 := by simpa using List.find?_some hfind
        have hne : ¬ q.1 = k := by rw [hq1]; exact hk
        simp [hne]
  · rw [if_neg hany, List.find?_append]
    have hnone : r.find? (fun p : String × Node => p.1 == k) = none := by
      rw [List.find?_eq_none]
      intro p hp hcontra
      exact hany (List.any_eq_true.mpr ⟨p, hp, hcontra⟩)
    by_cases hk : k2 = k
    · subst hk
      rw [if_pos rfl, hnone]
      simp
    · rw [if_neg hk]
      have hsing : List.find? (fun p : String × Node => p.1 == k2) [(k, v)] = none := by
        simp
        exact Ne.symm hk
      rw [hsing]
      cases hfind : r.find? (fun p : String × Node => p.1 == k2) <;> simp

/-- In a registry with duplicate-free keys, a key determines its node. -/
theorem nodup_keys_unique {l : Registry} (h : (l.map Prod.fst).Nodup)
    {k : String} {a b : Node} (ha : (k, a) ∈ l) (hb : (k, b) ∈ l) : a = b := by
  induction l with
  | nil => cases ha
  | cons q rest ih =>
    rw [List.map_cons, List.nodup_cons] at h
    rcases List.mem_cons.mp ha with ha1 | ha2
    · rcases List.mem_cons.mp hb with hb1 | hb2
      · rw [← ha1] at hb1
        exact (Prod.mk.injEq .. ▸ hb1.symm).2
      · exfalso
        apply h.1
        rw [← ha1]
        exact List.mem_map.mpr ⟨(k, b), hb2, rfl⟩
    · rcases List.mem_cons.mp hb with hb1 | hb2
      · exfalso
        apply h.1
        rw [← hb1]
        exact List.mem_map.mpr ⟨(k, a), ha2, rfl⟩
      · exact ih h.2 ha2 hb2

/-! ## Claim C2: node-id injectivity -/

/-- Counterexample to claim C2 as stated: within one (document,
node-type) pair, the two distinct chunk ids `1.1` and `1_1` produce the
same node id, because `generate_node_id` maps `.` to `_`. -/
theorem claim_c2_counterexample :
    generate_node_id "DOC" "1.1" "CLAUSE" = generate_node_id "DOC" "1_1" "CLAUSE"
    ∧ ("1.1" : String) ≠ "1_1" := by decide

/-- Claim C2, amended: for a fixed document id and node type, node-id
generation is injective on chunk identifiers that are still distinct
after the source's separator normalization (every `.` replaced by `_`);
identifiers that the normalization conflates (such as `1.1` and `1_1`)
collide. -/
theorem claim_c2_amended (doc typ c1 c2 : String)
    (h : replaceChar c1 '.' "_" ≠ replaceChar c2 '.' "_") :
    generate_node_id doc c1 typ ≠ generate_node_id doc c2 typ := by
  intro heq
  apply h
  have h2 : (generate_node_id doc c1 typ).data =
      (generate_node_id doc c2 typ).data := congrArg String.data heq
  simp only [generate_node_id, String.data_append, List.append_assoc] at h2
  have h3 := List.append_cancel_left h2
  have h4 := List.append_cancel_left h3
  have h5 := List.append_cancel_left h4
  have h6 := List.append_cancel_left h5
  calc replaceChar c1 '.' "_"
      = String.mk (replaceChar c1 '.' "_").data := rfl
    _ = String.mk (replaceChar c2 '.' "_").data := by rw [h6]
    _ = replaceChar c2 '.' "_" := rfl

/-- Witness for C2's amended theorem at a concrete input. -/
theorem claim_c2_witness :
    replaceChar "a" '.' "_" ≠ replaceChar "b" '.' "_"
    ∧ generate_node_id "D" "a" "CLAUSE" ≠ generate_node_id "D" "b" "CLAUSE" :=
  ⟨by decide, claim_c2_amended "D" "CLAUSE" "a" "b" (by decide)⟩

/-! ## Claim C9: last-wins node-id collisions -/

/-- If no chunk of `cs` generates node id `k`, the clause-node loop
leaves the registry entry for `k` unchanged. -/
theorem bcnAux_find_of_ne (k : String) :
    ∀ (cs : List Chunk) (idx : Nat) (r : Registry),
      (∀ c ∈ cs, clause_node_id c ≠ k) → (bcnAux idx cs r).find k = r.find k := by
  intro cs
  induction cs with
  | nil => intro idx r _; rfl
  | cons c cs ih =>
    intro idx r hne
    have h1 : (bcnAux (idx + 1) cs (r.insert (clause_node_id c) (clauseNode idx c))).find k
        = (r.insert (clause_node_id c) (clauseNode idx c)).find k :=
      ih (idx + 1) _ (fun c2 hc2 => hne c2 (List.mem_cons_of_mem c hc2))
    show (bcnAux (idx + 1) cs _).find k = r.find k
    rw [h1, registry_find_insert]
    rw [if_neg]
    exact fun hk => hne c (List.mem_cons_self c cs) (hk ▸ rfl)

/-- The clause-node loop over a split chunk list, with the enumeration
index advanced across the prefix. -/
theorem bcnAux_append :
    ∀ (xs ys : List Chunk) (idx : Nat) (r : Registry),
      bcnAux idx (xs ++ ys) r = bcnAux (idx + xs.length) ys (bcnAux idx xs r) := by
  intro xs
  induction xs with
  | nil => intro ys idx r; simp [bcnAux]
  | cons x xs ih =>
    intro ys idx r
    show bcnAux (idx + 1) (xs ++ ys) _ = _
    rw [ih]
    congr 1
    simp
    omega

/-- Claim C9: when chunks collide on a generated node id, the later
chunk's Clause node silently replaces the earlier one.  Part one: after
the clause-node phase, the registry maps each node id to the node built
from the *last* chunk generating it (for any prior registry contents and
any colliding earlier chunks).  Part two: the phase's log output is a
function of the chunk count alone, so a collision leaves no log entry.
Part three: on a concrete two-chunk corpus whose chunk ids `1.1` and
`1_1` collide, only one Clause node remains — strictly fewer nodes than
chunks. -/
theorem claim_c9_last_wins :
    (∀ (r0 : Registry) (pre post : List Chunk) (c : Chunk),
      (∀ c2 ∈ post, clause_node_id c2 ≠ clause_node_id c) →
      (build_clause_nodes (pre ++ c :: post) r0).find (clause_node_id c)
        = some (clauseNode (pre.length + 1) c))
    ∧ (∀ l1 l2 : List Chunk, l1.length = l2.length →
        build_clause_nodes_log l1 = build_clause_nodes_log l2)
    ∧ ((build_clause_nodes
          [{ chunk_id := "1.1", document_id := "D", content := ["first text"] },
           { chunk_id := "1_1", document_id := "D", content := ["second text"] }]
          []).length = 1
        ∧ (build_clause_nodes
            [{ chunk_id := "1.1", document_id := "D", content := ["first text"] },
             { chunk_id := "1_1", document_id := "D", content := ["second text"] }]
            []).find (clause_node_id
              { chunk_id := "1.1", document_id := "D", content := ["first text"] })
          = some (clauseNode 2
              { chunk_id := "1_1", document_id := "D", content := ["second text"] })) := by
  refine ⟨?_, ?_, by decide, by decide⟩
  · intro r0 pre post c hpost
    unfold build_clause_nodes
    rw [bcnAux_append]
    show (bcnAux (1 + pre.length + 1) post _).find _ = _
    rw [bcnAux_find_of_ne _ post _ _ hpost, registry_find_insert, if_pos rfl]
    rw [Nat.add_comm 1 pre.length]
  · intro l1 l2 h
    simp only [build_clause_nodes_log, h]

/-- Witness for C9 at concrete inputs. -/
theorem claim_c9_witness :
    (build_clause_nodes
        [{ chunk_id := "7", document_id := "D", content := ["lone text"] }]
        []).find (clause_node_id
          { chunk_id := "7", document_id := "D", content := ["lone text"] })
      = some (clauseNode 1
          { chunk_id := "7", document_id := "D", content := ["lone text"] })
    ∧ build_clause_nodes_log
        [{ chunk_id := "7", document_id := "D", content := ["lone text"] }]
      = build_clause_nodes_log
        [{ chunk_id := "8", document_id := "E", content := ["other text"] }] :=
  ⟨claim_c9_last_wins.1 [] [] []
      { chunk_id := "7", document_id := "D", content := ["lone text"] }
      (by simp),
   claim_c9_last_wins.2.1 _ _ rfl⟩

/-! ## Structural-edge characterization -/

/-- A clause-loop edge always targets the registry key it was emitted
for. -/
theorem clause_edge_for_target (nodes : Registry) (p : String × Node)
    (e : Edge) (h : clause_edge_for nodes p = some e) : e.2.1 = p.1 := by
  unfold clause_edge_for at h
  split at h
  · split at h
    · cases hfind : find_clause_node_by_id nodes p.2.parent_id p.2.document_id with
      | none => rw [hfind] at h; cases h
      | some par => rw [hfind] at h; cases h; rfl
    · cases hfind : find_standard_node nodes p.2.document_id with
      | none => rw [hfind] at h; cases h
      | some s => rw [hfind] at h; cases h; rfl
  · cases h

/-- A requirement-loop edge always targets the registry key it was
emitted for, and that entry is a Requirement node. -/
theorem req_edge_for_target (nodes : Registry) (p : String × Node)
    (e : Edge) (h : req_edge_for nodes p = some e) :
    e.2.1 = p.1 ∧ p.2.type = "Requirement" := by
  unfold req_edge_for at h
  split at h
  · cases hfind : find_clause_node_by_id nodes (.str p.2.parent_clause)
        p.2.document_id with
    | none => rw [hfind] at h; cases h
    | some par =>
      rw [hfind] at h
      cases h
      exact ⟨rfl, by simpa using (by assumption : (p.2.type == "Requirement") = true)⟩
  · cases h

/-- Edges emitted for entries whose keys all differ from `k` never
target `k`. -/
theorem filterMap_filter_target_nil (f : String × Node → Option Edge)
    (hf : ∀ p e, f p = some e → e.2.1 = p.1) (l : Registry) (k : String)
    (hk : ∀ p ∈ l, p.1 ≠ k) :
    (l.filterMap f).filter (fun e => e.2.1 == k) = [] := by
  rw [List.filter_eq_nil_iff]
  intro e he
  obtain ⟨p, hp, hfp⟩ := List.mem_filterMap.mp he
  have := hf p e hfp
  simp [this]
  exact hk p hp

/-- With duplicate-free keys, filtering the clause-loop edges down to
those targeting the key of entry `(k, n)` leaves exactly the edge
emitted for that entry. -/
theorem filterMap_filter_target (f : String × Node → Option Edge)
    (hf : ∀ p e, f p = some e → e.2.1 = p.1) :
    ∀ (l : Registry) (k : String) (n : Node),
      (l.map Prod.fst).Nodup → (k, n) ∈ l →
      (l.filterMap f).filter (fun e => e.2.1 == k) = (f (k, n)).toList := by
  intro l
  induction l with
  | nil => intro k n _ hmem; cases hmem
  | cons q rest ih =>
    intro k n hnd hmem
    rw [List.map_cons, List.nodup_cons] at hnd
    have hcons : (q :: rest).filterMap f = (f q).toList ++ rest.filterMap f := by
      cases h : f q <;> simp [List.filterMap_cons, h]
    rw [hcons, List.filter_append]
    rcases List.mem_cons.mp hmem with h1 | h2
    · have hrest : (rest.filterMap f).filter (fun e => e.2.1 == k) = [] := by
        apply filterMap_filter_target_nil f hf rest k
        intro p hp hpk
        apply hnd.1
        rw [← h1]
        dsimp
        rw [← hpk]
        exact List.mem_map.mpr ⟨p, hp, rfl⟩
      rw [hrest, List.append_nil, ← h1]
      cases hfq : f (k, n) with
      | none => simp
      | some e =>
        have he : e.2.1 = k := hf (k, n) e hfq
        simp [he]
    · have hqk : q.1 ≠ k := by
        intro hcontra
        apply hnd.1
        rw [hcontra]
        exact List.mem_map.mpr ⟨(k, n), h2, rfl⟩
      have hhead : ((f q).toList).filter (fun e => e.2.1 == k) = [] := by
        cases hfq : f q with
        | none => simp
        | some e =>
          have he : e.2.1 = q.1 := hf q e hfq
          simp [he, hqk]
      rw [hhead, List.nil_append]
      exact ih k n hnd.2 h2

/-- The structural edges targeting the Clause entry `(k, n)` are exactly
the at-most-one edge the Clause loop emits for it (the Requirement loop
contributes none). -/
theorem structural_filter_eq (nodes : Registry)
    (hnd : (nodes.map Prod.fst).Nodup) (k : String) (n : Node)
    (hmem : (k, n) ∈ nodes) (hcl : n.type = "Clause") :
    (build_structural_edges nodes).filter (fun e => e.2.1 == k)
      = (clause_edge_for nodes (k, n)).toList := by
  unfold build_structural_edges
  rw [List.filter_append]
  rw [filterMap_filter_target (clause_edge_for nodes)
    (clause_edge_for_target nodes) nodes k n hnd hmem]
  have hreq : (nodes.filterMap (req_edge_for nodes)).filter
      (fun e => e.2.1 == k) = [] := by
    rw [List.filter_eq_nil_iff]
    intro e he
    obtain ⟨p, hp, hfp⟩ := List.mem_filterMap.mp he
    obtain ⟨htgt, htype⟩ := req_edge_for_target nodes p e hfp
    simp [htgt]
    intro hcontra
    have : p.2 = n := nodup_keys_unique hnd (hcontra ▸ hp) hmem
    rw [this, hcl] at htype
    exact absurd htype (by decide)
  rw [hreq, List.append_nil]

/-! ## Claim C3: structural completeness -/

/-- A Standard node for document `D` (timestamp `T`), used by the
structural-edge examples. -/
def exStdD : Node := standardNode "T" "D"

/-- A chunk declaring a parent id that resolves nowhere. -/
def orphanChunk : Chunk :=
  { chunk_id := "5", document_id := "D", parent_id := .str "9",
    content := ["orphan text"] }

/-- Registry with one Standard and one orphan Clause. -/
def regOrphan : Registry :=
  [("STANDARD_D", exStdD),
   (clause_node_id orphanChunk, clauseNode 1 orphanChunk)]

/-- A top-level chunk. -/
def parentChunk : Chunk :=
  { chunk_id := "1", document_id := "D", content := ["parent text"] }

/-- A chunk whose parent id resolves to `parentChunk`. -/
def childChunk : Chunk :=
  { chunk_id := "1.1", document_id := "D", parent_id := .str "1",
    level := 2, content := ["child text"] }

/-- Registry with one Standard, a parent Clause and a child Clause. -/
def regParentChild : Registry :=
  [("STANDARD_D", exStdD),
   (clause_node_id parentChunk, clauseNode 1 parentChunk),
   (clause_node_id childChunk, clauseNode 2 childChunk)]

/-- Counterexample to claim C3 as stated: a Clause that declares a
parent id which does not resolve in its document receives *no*
structural edge at all — in particular not the HAS_CLAUSE edge the claim
requires for every Clause without a resolvable same-document parent. -/
theorem claim_c3_counterexample :
    (clauseNode 1 orphanChunk).parent_id.truthy = true
    ∧ find_clause_node_by_id regOrphan (.str "9") "D" = none
    ∧ (build_structural_edges regOrphan).filter
        (fun e => e.2.2 == "HAS_CLAUSE") = [] := by decide

/-- Claim C3, amended: in a registry with duplicate-free keys, a Clause
entry whose declared parent id resolves in the same document receives
exactly one incoming structural edge, the HAS_SUBCLAUSE edge from the
resolved parent; a Clause entry with a falsy parent id receives exactly
one incoming structural edge, the HAS_CLAUSE edge from its document's
Standard node, provided that Standard lookup succeeds; and a Clause
entry whose declared (truthy) parent id fails to resolve receives no
structural edge at all. -/
theorem claim_c3_structural (nodes : Registry)
    (hnd : (nodes.map Prod.fst).Nodup) (k : String) (n : Node)
    (hmem : (k, n) ∈ nodes) (hcl : n.type = "Clause") :
    (∀ p, n.parent_id.truthy = true →
      find_clause_node_by_id nodes n.parent_id n.document_id = some p →
      (build_structural_edges nodes).filter (fun e => e.2.1 == k)
        = [(p, k, "HAS_SUBCLAUSE")])
    ∧ (∀ s, n.parent_id.truthy = false →
      find_standard_node nodes n.document_id = some s →
      (build_structural_edges nodes).filter (fun e => e.2.1 == k)
        = [(s, k, "HAS_CLAUSE")])
    ∧ (n.parent_id.truthy = true →
      find_clause_node_by_id nodes n.parent_id n.document_id = none →
      (build_structural_edges nodes).filter (fun e => e.2.1 == k) = []) := by
  refine ⟨?_, ?_, ?_⟩
  · intro p htr hfind
    rw [structural_filter_eq nodes hnd k n hmem hcl]
    simp [clause_edge_for, hcl, htr, hfind]
  · intro s htr hfind
    rw [structural_filter_eq nodes hnd k n hmem hcl]
    simp [clause_edge_for, hcl, htr, hfind]
  · intro htr hfind
    rw [structural_filter_eq nodes hnd k n hmem hcl]
    simp [clause_edge_for, hcl, htr, hfind]

/-- Witness for C3's amended theorem: in the concrete parent/child
registry the child's only incoming structural edge is the HAS_SUBCLAUSE
edge from its resolved parent. -/
theorem claim_c3_witness :
    (build_structural_edges regParentChild).filter
      (fun e => e.2.1 == clause_node_id childChunk)
      = [(clause_node_id parentChunk, clause_node_id childChunk,
          "HAS_SUBCLAUSE")] :=
  (claim_c3_structural regParentChild (by decide) (clause_node_id childChunk)
    (clauseNode 2 childChunk) (by decide) rfl).1
    (clause_node_id parentChunk) rfl (by decide)

/-! ## Claim C10: falsy parent ids -/

/-- Claim C10: a Clause entry whose `parent_id` is any falsy value
(missing/null, empty string, or the number 0) is handled exactly like a
null parent: its per-entry structural edge is the same as with parent
explicitly null, it never receives a HAS_SUBCLAUSE edge, and (when its
document's Standard lookup succeeds) its only incoming structural edge
is the HAS_CLAUSE edge from that Standard node. -/
theorem claim_c10_falsy_parent (nodes : Registry)
    (hnd : (nodes.map Prod.fst).Nodup) (k : String) (n : Node)
    (hmem : (k, n) ∈ nodes) (hcl : n.type = "Clause")
    (hf : n.parent_id = PVal.null ∨ n.parent_id = PVal.str ""
      ∨ n.parent_id = PVal.int 0) :
    clause_edge_for nodes (k, n)
      = clause_edge_for nodes (k, { n with parent_id := PVal.null })
    ∧ (build_structural_edges nodes).filter
        (fun e => e.2.1 == k && e.2.2 == "HAS_SUBCLAUSE") = []
    ∧ (∀ s, find_standard_node nodes n.document_id = some s →
        (build_structural_edges nodes).filter (fun e => e.2.1 == k)
          = [(s, k, "HAS_CLAUSE")]) := by
  have htr : n.parent_id.truthy = false := by
    rcases hf with h | h | h <;> rw [h] <;> rfl
  have h0 : PVal.truthy PVal.null = false := rfl
  refine ⟨?_, ?_, ?_⟩
  · simp [clause_edge_for, hcl, htr, h0]
  · rw [List.filter_eq_nil_iff]
    intro e he
    rcases hb : (e.2.1 == k) with _ | _
    · simp [hb]
    · have hmemf : e ∈ (build_structural_edges nodes).filter
          (fun e => e.2.1 == k) :=
        List.mem_filter.mpr ⟨he, hb⟩
      rw [structural_filter_eq nodes hnd k n hmem hcl] at hmemf
      simp only [clause_edge_for, hcl, htr] at hmemf
      simp at hmemf
      cases hfind : find_standard_node nodes n.document_id with
      | none => rw [hfind] at hmemf; simp at hmemf
      | some s =>
        rw [hfind] at hmemf
        simp at hmemf
        rw [← hmemf]
        simp
  · intro s hfind
    rw [structural_filter_eq nodes hnd k n hmem hcl]
    simp [clause_edge_for, hcl, htr, hfind]

/-- A chunk whose parent id is the falsy number 0. -/
def zeroParentChunk : Chunk :=
  { chunk_id := "3", document_id := "D", parent_id := .int 0,
    content := ["zero parent"] }

/-- Registry with one Standard and one Clause with parent id 0. -/
def regZeroParent : Registry :=
  [("STANDARD_D", exStdD),
   (clause_node_id zeroParentChunk, clauseNode 1 zeroParentChunk)]

/-- Witness for C10 at a concrete registry whose Clause has the falsy
parent id `0`. -/
theorem claim_c10_witness :
    (build_structural_edges regZeroParent).filter
      (fun e => e.2.1 == clause_node_id zeroParentChunk)
      = [("STANDARD_D", clause_node_id zeroParentChunk, "HAS_CLAUSE")] :=
  (claim_c10_falsy_parent regZeroParent (by decide)
    (clause_node_id zeroParentChunk) (clauseNode 1 zeroParentChunk)
    (by decide) rfl (Or.inr (Or.inr rfl))).2.2 "STANDARD_D" (by decide)

/-! ## Similarity-phase characterization -/

/-- The SIMILAR_TO edges of one inner-loop pass, before the cap. -/
def innerEdges (thr : ℚ) (c1 : Node) (l : List Node) : List Edge :=
  (l.filter (fun c2 => qualifies thr c1 c2)).map
    (fun c2 => (c1.id, c2.id, "SIMILAR_TO"))

/-- The SIMILAR_TO edges of the whole traversal, before the cap: the
qualifying pairs in traversal order. -/
def pairEdges (thr : ℚ) (clauses : List Node) : List Edge :=
  ((orderedPairs clauses).filter (fun p => qualifies thr p.1 p.2)).map simEdge

/-- Unfolding `pairEdges` over the head clause. -/
theorem pairEdges_cons (thr : ℚ) (c1 : Node) (rest : List Node) :
    pairEdges thr (c1 :: rest) = innerEdges thr c1 rest ++ pairEdges thr rest := by
  unfold pairEdges innerEdges
  rw [show orderedPairs (c1 :: rest)
      = rest.map (fun c2 => (c1, c2)) ++ orderedPairs rest from rfl]
  rw [List.filter_append, List.map_append]
  congr 1
  rw [List.filter_map, List.map_map]
  rfl

/-- The inner loop emits exactly the first `maxLinks - cnt` qualifying
edges of its pass, and advances the count by that many. -/
theorem simInner_eq (thr : ℚ) (maxLinks : Nat) (c1 : Node) :
    ∀ (l : List Node) (cnt : Nat), cnt < maxLinks →
      simInner thr maxLinks c1 l cnt
        = ((innerEdges thr c1 l).take (maxLinks - cnt),
           cnt + ((innerEdges thr c1 l).take (maxLinks - cnt)).length) := by
  intro l
  induction l with
  | nil => intro cnt _; simp [simInner, innerEdges]
  | cons c2 rest ih =>
    intro cnt hcnt
    have hconsq : innerEdges thr c1 (c2 :: rest)
        = (if qualifies thr c1 c2 then
            [(c1.id, c2.id, ("SIMILAR_TO" : String))] else [])
          ++ innerEdges thr c1 rest := by
      unfold innerEdges
      rw [List.filter_cons]
      split <;> simp
    have hstep : simInner thr maxLinks c1 (c2 :: rest) cnt
        = if (c1.document_id == c2.document_id) = true then
            simInner thr maxLinks c1 rest cnt
          else if (c1.full_text == "" || c2.full_text == "") = true then
            simInner thr maxLinks c1 rest cnt
          else if thr ≤ _calculate_similarity c1.full_text c2.full_text then
            (if maxLinks ≤ cnt + 1 then
              ([(c1.id, c2.id, ("SIMILAR_TO" : String))], cnt + 1)
            else
              ((c1.id, c2.id, ("SIMILAR_TO" : String))
                  :: (simInner thr maxLinks c1 rest (cnt + 1)).1,
                (simInner thr maxLinks c1 rest (cnt + 1)).2))
          else simInner thr maxLinks c1 rest cnt := rfl
    rw [hstep]
    cases hdoc : c1.document_id == c2.document_id with
    | true =>
      have hq : qualifies thr c1 c2 = false := by simp [qualifies, hdoc]
      rw [if_pos rfl, hconsq, hq, if_neg (by simp), List.nil_append]
      exact ih cnt hcnt
    | false =>
      rw [if_neg (by simp)]
      cases hemp : c1.full_text == "" || c2.full_text == "" with
      | true =>
        have hq : qualifies thr c1 c2 = false := by
          simp only [qualifies, hemp]
          simp
        rw [if_pos rfl, hconsq, hq, if_neg (by simp), List.nil_append]
        exact ih cnt hcnt
      | false =>
        rw [if_neg (by simp)]
        by_cases hsim : thr ≤ _calculate_similarity c1.full_text c2.full_text
        · have hq : qualifies thr c1 c2 = true := by
            simp [qualifies, hdoc, hemp, hsim]
          rw [if_pos hsim, hconsq, hq, if_pos rfl, List.singleton_append]
          by_cases hcap : maxLinks ≤ cnt + 1
          · have hone : maxLinks - cnt = 1 := by omega
            rw [if_pos hcap, hone]
            simp
          · rw [if_neg hcap, ih (cnt + 1) (by omega)]
            have htk : (((c1.id, c2.id, ("SIMILAR_TO" : String))
                :: innerEdges thr c1 rest).take (maxLinks - cnt))
                = (c1.id, c2.id, ("SIMILAR_TO" : String))
                  :: (innerEdges thr c1 rest).take (maxLinks - cnt - 1) := by
              cases hmc : maxLinks - cnt with
              | zero => omega
              | succ m => simp [List.take_succ_cons]
            rw [htk]
            have harith : maxLinks - (cnt + 1) = maxLinks - cnt - 1 := by omega
            rw [harith]
            simp
            omega
        · have hq : qualifies thr c1 c2 = false := by
            simp [qualifies, hsim]
          rw [if_neg hsim, hconsq, hq, if_neg (by simp), List.nil_append]
          exact ih cnt hcnt

/-- The outer loop emits exactly the first `maxLinks - cnt` qualifying
edges of the whole traversal. -/
theorem simOuter_eq (thr : ℚ) (maxLinks : Nat) :
    ∀ (l : List Node) (cnt : Nat), cnt ≤ maxLinks →
      simOuter thr maxLinks l cnt
        = ((pairEdges thr l).take (maxLinks - cnt),
           cnt + ((pairEdges thr l).take (maxLinks - cnt)).length) := by
  intro l
  induction l with
  | nil => intro cnt _; simp [simOuter, pairEdges, orderedPairs]
  | cons c1 rest ih =>
    intro cnt hcnt
    by_cases hstop : maxLinks ≤ cnt
    · have heq : cnt = maxLinks := le_antisymm hcnt hstop
      subst heq
      simp [simOuter]
    · have hlt : cnt < maxLinks := by omega
      simp only [simOuter]
      rw [if_neg hstop, simInner_eq thr maxLinks c1 rest cnt hlt]
      have hlen1 : ((innerEdges thr c1 rest).take (maxLinks - cnt)).length
          = min (maxLinks - cnt) (innerEdges thr c1 rest).length :=
        List.length_take ..
      have hcnt1 : cnt + ((innerEdges thr c1 rest).take (maxLinks - cnt)).length
          ≤ maxLinks := by
        rw [hlen1]
        omega
      rw [ih _ hcnt1, pairEdges_cons, List.take_append_eq_append_take]
      have harith : maxLinks
          - (cnt + ((innerEdges thr c1 rest).take (maxLinks - cnt)).length)
          = (maxLinks - cnt) - (innerEdges thr c1 rest).length := by
        rw [hlen1]
        omega
      rw [harith]
      simp
      omega

/-- Every edge the similarity phase emits comes from a qualifying pair
of the traversal. -/
theorem detect_mem (clauses : List Node) (thr : ℚ) (maxLinks : Nat)
    (e : Edge) (he : e ∈ detect_semantic_similarities clauses thr maxLinks) :
    ∃ c1 c2 : Node, (c1, c2) ∈ orderedPairs clauses
      ∧ qualifies thr c1 c2 = true ∧ e = (c1.id, c2.id, "SIMILAR_TO") := by
  unfold detect_semantic_similarities at he
  rw [simOuter_eq thr maxLinks clauses 0 (Nat.zero_le _)] at he
  have he2 : e ∈ pairEdges thr clauses := List.take_subset _ _ he
  unfold pairEdges at he2
  obtain ⟨p, hp, hpe⟩ := List.mem_map.mp he2
  obtain ⟨hpmem, hpq⟩ := List.mem_filter.mp hp
  exact ⟨p.1, p.2, hpmem, hpq, hpe ▸ rfl⟩

/-- The components of a qualifying pair. -/
theorem qualifies_spec (thr : ℚ) (c1 c2 : Node)
    (h : qualifies thr c1 c2 = true) :
    c1.document_id ≠ c2.document_id ∧ c1.full_text ≠ "" ∧ c2.full_text ≠ ""
      ∧ thr ≤ _calculate_similarity c1.full_text c2.full_text := by
  simp only [qualifies, Bool.and_eq_true, Bool.not_eq_true', beq_eq_false_iff_ne,
    Bool.or_eq_false_iff, decide_eq_true_eq] at h
  exact ⟨h.1.1, h.1.2.1, h.1.2.2, h.2⟩

/-! ## Claim C4: similarity cap and traversal-prefix semantics -/

/-- Claim C4: for every clause list, threshold and cap, the similarity
phase emits exactly the first `max_links` qualifying pairs (different
documents, both texts non-empty, similarity at least the threshold) in
the fixed traversal order — outer loop in load order, inner loop over
strictly subsequent clauses — and in particular never more than
`max_links` edges. -/
theorem claim_c4_cap_and_order (clauses : List Node) (thr : ℚ)
    (maxLinks : Nat) :
    detect_semantic_similarities clauses thr maxLinks
      = (pairEdges thr clauses).take maxLinks
    ∧ (detect_semantic_similarities clauses thr maxLinks).length ≤ maxLinks := by
  have h : detect_semantic_similarities clauses thr maxLinks
      = (pairEdges thr clauses).take maxLinks := by
    unfold detect_semantic_similarities
    rw [simOuter_eq thr maxLinks clauses 0 (Nat.zero_le _)]
    simp
  refine ⟨h, ?_⟩
  rw [h, List.length_take]
  omega

/-! ## Claim C5: cross-document-only similarity edges -/

/-- Claim C5: every SIMILAR_TO edge of a built graph joins two Clause
nodes of the traversal whose `document_id` fields differ; in particular
the two clauses are distinct, so no clause is ever paired with
itself. -/
theorem claim_c5_cross_document (now : String) (input : List DocumentDir)
    (e : Edge) (he : e ∈ (build_graph now input).2.2)
    (hrel : e.2.2 = "SIMILAR_TO") :
    ∃ c1 c2 : Node,
      (c1, c2) ∈ orderedPairs (clausesOf (build_graph now input).2.1)
      ∧ c1.document_id ≠ c2.document_id ∧ c1 ≠ c2
      ∧ e = (c1.id, c2.id, "SIMILAR_TO") := by
  by_cases h0 : ((allChunksOf input).length == 0) = true
  · simp only [build_graph, h0, if_true] at he
    exact absurd he (List.not_mem_nil e)
  · simp only [build_graph, h0, if_false] at he ⊢
    rcases List.mem_append.mp he with h12 | hsim
    · exfalso
      rcases List.mem_append.mp h12 with hst | hcr
      · unfold build_structural_edges at hst
        rcases List.mem_append.mp hst with hcl | hrq
        · obtain ⟨p, _, hfp⟩ := List.mem_filterMap.mp hcl
          unfold clause_edge_for at hfp
          split at hfp
          · split at hfp
            · cases hfind : find_clause_node_by_id _ p.2.parent_id
                  p.2.document_id with
              | none => rw [hfind] at hfp; cases hfp
              | some par =>
                rw [hfind] at hfp
                cases hfp
                simp at hrel
            · cases hfind : find_standard_node _ p.2.document_id with
              | none => rw [hfind] at hfp; cases hfp
              | some s =>
                rw [hfind] at hfp
                cases hfp
                simp at hrel
          · cases hfp
        · obtain ⟨p, _, hfp⟩ := List.mem_filterMap.mp hrq
          unfold req_edge_for at hfp
          split at hfp
          · cases hfind : find_clause_node_by_id _ (.str p.2.parent_clause)
                p.2.document_id with
            | none => rw [hfind] at hfp; cases hfp
            | some par =>
              rw [hfind] at hfp
              cases hfp
              simp at hrel
          · cases hfp
      · exfalso
        unfold detect_cross_references at hcr
        rw [List.mem_flatten] at hcr
        obtain ⟨l1, hl1, hel1⟩ := hcr
        obtain ⟨node, _, hnode⟩ := List.mem_map.mp hl1
        rw [← hnode, List.mem_flatten] at hel1
        obtain ⟨l2, hl2, hel2⟩ := hel1
        obtain ⟨ref, _, href⟩ := List.mem_map.mp hl2
        rw [← href] at hel2
        obtain ⟨d, _, hd⟩ := List.mem_filterMap.mp hel2
        split at hd
        · cases hd
          simp at hrel
        · cases hd
    · obtain ⟨c1, c2, hpair, hq, heq⟩ := detect_mem _ _ _ e hsim
      obtain ⟨hdoc, _, _, _⟩ := qualifies_spec _ _ _ hq
      refine ⟨c1, c2, hpair, hdoc, ?_, heq⟩
      intro hcc
      exact hdoc (by rw [hcc])

/-- Clause list of a two-document corpus whose lone clauses overlap
enough to be linked. -/
def simDocA : DocumentDir :=
  ⟨"A", [{ chunk_id := "1", document_id := "A",
           content := ["alpha beta gamma delta"] }]⟩

/-- Second document for the similarity example. -/
def simDocB : DocumentDir :=
  ⟨"B", [{ chunk_id := "1", document_id := "B",
           content := ["alpha beta gamma epsilon"] }]⟩

/-- Witness for C5: the concrete two-document build emits the
SIMILAR_TO edge between its two clauses, and the theorem locates it on a
document-distinct pair. -/
theorem claim_c5_witness :
    ∃ c1 c2 : Node,
      (c1, c2) ∈ orderedPairs (clausesOf (build_graph "T" [simDocA, simDocB]).2.1)
      ∧ c1.document_id ≠ c2.document_id ∧ c1 ≠ c2
      ∧ (("A_CLAUSE_1", "B_CLAUSE_1", "SIMILAR_TO") : Edge)
          = (c1.id, c2.id, "SIMILAR_TO") :=
  claim_c5_cross_document "T" [simDocA, simDocB]
    ("A_CLAUSE_1", "B_CLAUSE_1", "SIMILAR_TO") (by decide) rfl

/-! ## Claim C6: the similarity score -/

/-- The Jaccard coefficient of the two token sets, as the specification
words it: intersection size over union size (division by zero yields 0
in ℚ, covering the empty-set cases). -/
def jaccard_spec (t1 t2 : String) : ℚ :=
  ((tokenSet t1 ∩ tokenSet t2).card : ℚ) / ((tokenSet t1 ∪ tokenSet t2).card : ℚ)

/-- Claim C6: the similarity score equals the Jaccard coefficient of the
two lower-cased, whitespace-tokenized, stop-word-filtered token sets; it
is 0 whenever either filtered set is empty; and a clause pair with an
empty source text is skipped outright — every emitted edge comes from a
pair whose two texts are non-empty. -/
theorem claim_c6_jaccard :
    (∀ t1 t2 : String, _calculate_similarity t1 t2 = jaccard_spec t1 t2)
    ∧ (∀ t1 t2 : String, tokenSet t1 = ∅ ∨ tokenSet t2 = ∅ →
        _calculate_similarity t1 t2 = 0)
    ∧ (∀ (clauses : List Node) (thr : ℚ) (maxLinks : Nat) (e : Edge),
        e ∈ detect_semantic_similarities clauses thr maxLinks →
        ∃ c1 c2 : Node, (c1, c2) ∈ orderedPairs clauses
          ∧ c1.full_text ≠ "" ∧ c2.full_text ≠ ""
          ∧ e = (c1.id, c2.id, "SIMILAR_TO")) := by
  refine ⟨?_, ?_, ?_⟩
  · intro t1 t2
    unfold _calculate_similarity jaccard_spec
    by_cases h1 : tokenSet t1 = ∅
    · simp [h1]
    · by_cases h2 : tokenSet t2 = ∅
      · simp [h2]
      · rw [if_neg (by tauto)]
        have hu : 0 < (tokenSet t1 ∪ tokenSet t2).card := by
          rw [Finset.card_pos]
          exact Finset.Nonempty.mono Finset.subset_union_left
            (Finset.nonempty_iff_ne_empty.mpr h1)
        rw [if_pos hu, Rat.mkRat_eq_div]
        push_cast
        rfl
  · intro t1 t2 h
    unfold _calculate_similarity
    rw [if_pos h]
  · intro clauses thr maxLinks e he
    obtain ⟨c1, c2, hpair, hq, heq⟩ := detect_mem _ _ _ e he
    obtain ⟨_, ht1, ht2, _⟩ := qualifies_spec _ _ _ hq
    exact ⟨c1, c2, hpair, ht1, ht2, heq⟩

/-- A bare Clause node for the C6 witness. -/
def wNode1 : Node :=
  { id := "N1", type := "Clause", document_id := "A", full_text := "x" }

/-- A second bare Clause node for the C6 witness. -/
def wNode2 : Node :=
  { id := "N2", type := "Clause", document_id := "B", full_text := "y" }

/-- Witness for C6 at concrete inputs: a concrete score equality, a
stop-word-only text scoring 0, and a concrete emitted edge whose source
pair has non-empty texts. -/
theorem claim_c6_witness :
    _calculate_similarity "q r" "q s" = jaccard_spec "q r" "q s"
    ∧ _calculate_similarity "the" "word" = 0
    ∧ (∃ c1 c2 : Node, (c1, c2) ∈ orderedPairs [wNode1, wNode2]
        ∧ c1.full_text ≠ "" ∧ c2.full_text ≠ ""
        ∧ (("N1", "N2", "SIMILAR_TO") : Edge) = (c1.id, c2.id, "SIMILAR_TO")) :=
  ⟨claim_c6_jaccard.1 "q r" "q s",
   claim_c6_jaccard.2.1 "the" "word" (Or.inl (by decide)),
   claim_c6_jaccard.2.2 [wNode1, wNode2] 0 5
     ("N1", "N2", "SIMILAR_TO") (by decide)⟩

/-! ## Claim C7: empty corpus aborts the build -/

/-- Claim C7: with zero chunks loaded across all documents the build
returns failure before creating any node — the registry and edge
sequence are empty — and `main` writes no artifact. -/
theorem claim_c7_empty_corpus (now : String) (input : List DocumentDir)
    (h : allChunksOf input = []) :
    build_graph now input = (false, [], []) ∧ run_main now input = none := by
  constructor
  · simp [build_graph, h]
  · simp [run_main, build_graph, h]

/-- Witness for C7: a corpus with one chunkless document directory. -/
theorem claim_c7_witness :
    build_graph "T" [⟨"D", []⟩] = (false, [], [])
    ∧ run_main "T" [⟨"D", []⟩] = none :=
  claim_c7_empty_corpus "T" [⟨"D", []⟩] rfl

/-! ## Claim C1: the two-document cross-reference scenario -/

/-- The spec scenario's first document: `EN_50173` with three clauses,
one citing `EN 50174-2`. -/
def scenarioDocA : DocumentDir :=
  ⟨"EN_50173",
   [{ chunk_id := "1", document_id := "EN_50173", title := "Scope",
      content := ["General requirements overview"] },
    { chunk_id := "2", document_id := "EN_50173", title := "Reference",
      content := ["see EN 50174-2 for cabling"] },
    { chunk_id := "2.1", document_id := "EN_50173", title := "Details",
      parent_id := .str "2", level := 2, content := ["Cabling details here"] }]⟩

/-- The spec scenario's second document: `EN_50174-2` with two clauses. -/
def scenarioDocB : DocumentDir :=
  ⟨"EN_50174-2",
   [{ chunk_id := "1", document_id := "EN_50174-2", title := "Planning",
      content := ["Installation planning basics"] },
    { chunk_id := "2", document_id := "EN_50174-2", title := "Practice",
      content := ["Installation practice notes"] }]⟩

/-- The spec scenario's corpus. -/
def scenario : List DocumentDir := [scenarioDocA, scenarioDocB]

/-- Claim C1 fails on the code: in the spec's own scenario the build
succeeds with 2 Standard and 5 Clause nodes, the citing clause's raw
match is exactly `EN 50174-2`, but the citation-side normalization turns
spaces into underscores (`EN_50174-2`) while the document-side
normalization deletes underscores (`EN50174-2`) — the two results are
*not* normalized the same way, neither contains the other, and the
cross-reference phase emits zero REFERENCES edges instead of the
claimed one. -/
theorem claim_c1_crossref_divergence :
    refs_of "see EN 50174-2 for cabling" = ["EN 50174-2"]
    ∧ normalize_ref "EN 50174-2" = "EN_50174-2"
    ∧ normalize_doc "EN_50174-2" = "EN50174-2"
    ∧ isSubstr (normalize_doc "EN_50174-2") (normalize_ref "EN 50174-2") = false
    ∧ isSubstr (normalize_ref "EN 50174-2") (normalize_doc "EN_50174-2") = false
    ∧ (build_graph "T" scenario).1 = true
    ∧ ((build_graph "T" scenario).2.1.values.filter
        (fun n => n.type == "Standard")).length = 2
    ∧ ((build_graph "T" scenario).2.1.values.filter
        (fun n => n.type == "Clause")).length = 5
    ∧ (build_graph "T" scenario).2.2.filter
        (fun e => e.2.2 == "REFERENCES") = [] := by decide

/-! ## Claim C8: determinism across runs

`build_graph` reads two run-dependent inputs.  The first is the
wall-clock timestamp (modelled by the `now` parameter), stored verbatim
in each Standard node's `created_at` field and nowhere else; the lemmas
below push a `created_at`-scrubbing map through every phase.  The second
is the iteration order of the per-clause `refs` *set* in the
cross-reference phase (`for ref in refs:`), which Python hash
randomization can change between processes.  A run's order is modelled
by an explicit function `ord` that must list the set's distinct
elements (`dedupFirst`) in some order, i.e. be a permutation of them;
`build_graph` itself is the instance at the first-encounter order. -/

/-- The cross-reference phase of one concrete run: as
`detect_cross_references`, but iterating each clause's distinct raw
matches in the run's set-iteration order `ord` applied to the raw
match list. -/
def detect_cross_references_run (nodes : Registry) (docs : List String)
    (ord : List String → List String) : List Edge :=
  ((nodes.values.filter (fun n => n.type == "Clause")).map (fun node =>
    ((ord (raw_refs node.full_text)).map (fun ref =>
      docs.filterMap (fun doc_id =>
        if (isSubstr (normalize_doc doc_id) (normalize_ref ref) ||
            isSubstr (normalize_ref ref) (normalize_doc doc_id)) &&
           nodes.any (fun p => p.1 == "STANDARD_" ++ doc_id) then
          some (node.id, "STANDARD_" ++ doc_id, "REFERENCES")
        else none))).flatten)).flatten

/-- One concrete run of `build_graph`: the pipeline at a given
timestamp and set-iteration order. -/
def build_graph_run (now : String) (ord : List String → List String)
    (input : List DocumentDir) : Bool × Registry × List Edge :=
  let docs := input.map DocumentDir.name
  let chunks := allChunksOf input
  if chunks.length == 0 then (false, [], [])
  else
    let r1 := build_standard_nodes now docs []
    let r2 := build_clause_nodes chunks r1
    let r3 := build_requirement_nodes chunks r2
    let e1 := build_structural_edges r3
    let e2 := detect_cross_references_run r3 docs ord
    let e3 := detect_semantic_similarities (clausesOf r3) (mkRat 3 10) 200
    (true, r3, e1 ++ e2 ++ e3)

/-- `build_graph` is the run whose set-iteration order is
first-encounter order. -/
theorem build_graph_run_dedupFirst (now : String) (input : List DocumentDir) :
    build_graph_run now dedupFirst input = build_graph now input := rfl

/-- Clear the run-timestamp field of a node. -/
def scrub (n : Node) : Node := { n with created_at := "" }

/-- Clear the run-timestamp field of a registry entry. -/
def scrubEntry (p : String × Node) : String × Node := (p.1, scrub p.2)

/-- Scrubbing commutes with a dict write. -/
theorem insert_map_scrub (r : Registry) (k : String) (v : Node) :
    (r.insert k v).map scrubEntry
      = Registry.insert (r.map scrubEntry) k (scrub v) := by
  unfold Registry.insert
  have hany : (r.map scrubEntry).any (fun p => p.1 == k)
      = r.any (fun p => p.1 == k) := by
    rw [List.any_map]
    rfl
  rw [hany]
  by_cases h : r.any (fun p => p.1 == k) = true
  · rw [if_pos h, if_pos h, List.map_map, List.map_map]
    congr 1
    funext p
    by_cases hp : p.1 = k <;> simp [scrubEntry, hp]
  · rw [if_neg h, if_neg h, List.map_append]
    rfl

/-- Scrubbing the Standard-node phase erases exactly the timestamp. -/
theorem build_standard_nodes_scrub :
    ∀ (docs : List String) (now : String) (r : Registry),
      (build_standard_nodes now docs r).map scrubEntry
        = build_standard_nodes "" docs (r.map scrubEntry) := by
  intro docs
  induction docs with
  | nil => intro now r; rfl
  | cons d ds ih =>
    intro now r
    have h1 : build_standard_nodes now (d :: ds) r
        = build_standard_nodes now ds
            (r.insert ("STANDARD_" ++ d) (standardNode now d)) := rfl
    rw [h1, ih, insert_map_scrub]
    rfl

/-- The clause-node phase never touches the timestamp. -/
theorem bcnAux_scrub :
    ∀ (chunks : List Chunk) (idx : Nat) (r : Registry),
      (bcnAux idx chunks r).map scrubEntry
        = bcnAux idx chunks (r.map scrubEntry) := by
  intro chunks
  induction chunks with
  | nil => intro idx r; rfl
  | cons c cs ih =>
    intro idx r
    have h1 : bcnAux idx (c :: cs) r
        = bcnAux (idx + 1) cs
            (r.insert (clause_node_id c) (clauseNode idx c)) := rfl
    rw [h1, ih, insert_map_scrub]
    rfl

/-- The clause-node phase never touches the timestamp. -/
theorem build_clause_nodes_scrub (chunks : List Chunk) (r : Registry) :
    (build_clause_nodes chunks r).map scrubEntry
      = build_clause_nodes chunks (r.map scrubEntry) :=
  bcnAux_scrub chunks 1 r

/-- One chunk's requirement loop never touches the timestamp. -/
theorem brnChunk_scrub (c : Chunk) :
    ∀ (qs : List ReqRecord) (ridx : Nat) (r : Registry),
      (brnChunk c ridx qs r).map scrubEntry
        = brnChunk c ridx qs (r.map scrubEntry) := by
  intro qs
  induction qs with
  | nil => intro ridx r; rfl
  | cons q rest ih =>
    intro ridx r
    have h1 : brnChunk c ridx (q :: rest) r
        = brnChunk c (ridx + 1) rest
            (r.insert (requirementNode c ridx q).id (requirementNode c ridx q)) := rfl
    rw [h1, ih, insert_map_scrub]
    rfl

/-- The requirement-node phase never touches the timestamp. -/
theorem build_requirement_nodes_scrub :
    ∀ (chunks : List Chunk) (r : Registry),
      (build_requirement_nodes chunks r).map scrubEntry
        = build_requirement_nodes chunks (r.map scrubEntry) := by
  intro chunks
  induction chunks with
  | nil => intro r; rfl
  | cons c cs ih =>
    intro r
    have h1 : build_requirement_nodes (c :: cs) r
        = build_requirement_nodes cs (brnChunk c 1 c.requirements r) := rfl
    rw [h1, ih, brnChunk_scrub]
    rfl

/-- Parent lookups ignore the timestamp. -/
theorem find_clause_scrub (r : Registry) (pid : PVal) (doc : String) :
    find_clause_node_by_id (r.map scrubEntry) pid doc
      = find_clause_node_by_id r pid doc := by
  unfold find_clause_node_by_id
  rw [List.find?_map]
  have hpred : ((fun p : String × Node =>
      p.2.type == "Clause" && pid.eqStr p.2.clause_id && p.2.document_id == doc)
        ∘ scrubEntry)
      = fun p : String × Node =>
        p.2.type == "Clause" && pid.eqStr p.2.clause_id
          && p.2.document_id == doc := rfl
  rw [hpred]
  cases r.find? (fun p : String × Node =>
      p.2.type == "Clause" && pid.eqStr p.2.clause_id
        && p.2.document_id == doc) <;> rfl

/-- Standard-node lookups ignore the timestamp. -/
theorem find_standard_scrub (r : Registry) (doc : String) :
    find_standard_node (r.map scrubEntry) doc = find_standard_node r doc := by
  unfold find_standard_node
  rw [List.filter_map]
  have hpred : ((fun p : String × Node =>
      p.2.type == "Standard" && p.2.document_id == doc) ∘ scrubEntry)
      = fun p : String × Node =>
        p.2.type == "Standard" && p.2.document_id == doc := rfl
  rw [hpred, List.map_map]
  rfl

/-- The per-entry clause edge ignores the timestamp. -/
theorem clause_edge_for_scrub (r : Registry) (p : String × Node) :
    clause_edge_for (r.map scrubEntry) (scrubEntry p) = clause_edge_for r p := by
  unfold clause_edge_for
  rw [find_clause_scrub, find_standard_scrub]
  rfl

/-- The per-entry requirement edge ignores the timestamp. -/
theorem req_edge_for_scrub (r : Registry) (p : String × Node) :
    req_edge_for (r.map scrubEntry) (scrubEntry p) = req_edge_for r p := by
  unfold req_edge_for
  rw [find_clause_scrub]
  rfl

/-- filterMap over a scrubbed registry with a scrub-invariant edge
function. -/
theorem filterMap_scrub_congr (f g : String × Node → Option Edge)
    (h : ∀ p, f (scrubEntry p) = g p) (l : Registry) :
    (l.map scrubEntry).filterMap f = l.filterMap g := by
  induction l with
  | nil => rfl
  | cons p rest ih =>
    simp only [List.map_cons, List.filterMap_cons, h p, ih]

/-- The structural-edge phase ignores the timestamp. -/
theorem build_structural_scrub (r : Registry) :
    build_structural_edges (r.map scrubEntry) = build_structural_edges r := by
  unfold build_structural_edges
  rw [filterMap_scrub_congr _ _ (clause_edge_for_scrub r) r,
    filterMap_scrub_congr _ _ (req_edge_for_scrub r) r]

/-- The clause list of a scrubbed registry is the scrubbed clause
list. -/
theorem clause_list_scrub (r : Registry) :
    (Registry.values (r.map scrubEntry)).filter (fun n => n.type == "Clause")
      = ((Registry.values r).filter (fun n => n.type == "Clause")).map scrub := by
  have h1 : Registry.values (r.map scrubEntry) = (Registry.values r).map scrub := by
    unfold Registry.values
    rw [List.map_map, List.map_map]
    rfl
  rw [h1, List.filter_map]
  rfl

/-- The cross-reference phase ignores the timestamp. -/
theorem detect_cross_scrub (r : Registry) (docs : List String) :
    detect_cross_references (r.map scrubEntry) docs
      = detect_cross_references r docs := by
  unfold detect_cross_references
  rw [clause_list_scrub, List.map_map]
  congr 1
  apply List.map_congr_left
  intro node _
  simp only [Function.comp_apply, List.any_map]
  rfl

/-- Ordered pairs of a mapped clause list. -/
theorem orderedPairs_map (f : Node → Node) :
    ∀ l : List Node, orderedPairs (l.map f) = (orderedPairs l).map (Prod.map f f) := by
  intro l
  induction l with
  | nil => rfl
  | cons c rest ih =>
    have h1 : orderedPairs ((c :: rest).map f)
        = ((rest.map f).map (fun c2 => (f c, c2))) ++ orderedPairs (rest.map f) := rfl
    have h2 : orderedPairs (c :: rest)
        = rest.map (fun c2 => (c, c2)) ++ orderedPairs rest := rfl
    rw [h1, h2, ih, List.map_append, List.map_map, List.map_map]
    rfl

/-- The similarity phase ignores the timestamp. -/
theorem detect_sem_scrub (clauses : List Node) (thr : ℚ) (k : Nat) :
    detect_semantic_similarities (clauses.map scrub) thr k
      = detect_semantic_similarities clauses thr k := by
  unfold detect_semantic_similarities
  rw [simOuter_eq thr k (clauses.map scrub) 0 (Nat.zero_le _),
    simOuter_eq thr k clauses 0 (Nat.zero_le _)]
  dsimp only
  congr 1
  unfold pairEdges
  rw [orderedPairs_map, List.filter_map, List.map_map]
  rfl

/-- The cross-reference phase of a run ignores the timestamp. -/
theorem detect_cross_run_scrub (r : Registry) (docs : List String)
    (ord : List String → List String) :
    detect_cross_references_run (r.map scrubEntry) docs ord
      = detect_cross_references_run r docs ord := by
  unfold detect_cross_references_run
  rw [clause_list_scrub, List.map_map]
  congr 1
  apply List.map_congr_left
  intro node _
  simp only [Function.comp_apply, List.any_map]
  rfl

/-- A structural edge never carries the REFERENCES relationship. -/
theorem structural_not_ref (r : Registry) (e : Edge)
    (h : e ∈ build_structural_edges r) : (e.2.2 == "REFERENCES") = false := by
  unfold build_structural_edges at h
  rcases List.mem_append.mp h with hcl | hrq
  · obtain ⟨p, _, hfp⟩ := List.mem_filterMap.mp hcl
    unfold clause_edge_for at hfp
    split at hfp
    · split at hfp
      · cases hfind : find_clause_node_by_id r p.2.parent_id p.2.document_id with
        | none => rw [hfind] at hfp; cases hfp
        | some par => rw [hfind] at hfp; cases hfp; rfl
      · cases hfind : find_standard_node r p.2.document_id with
        | none => rw [hfind] at hfp; cases hfp
        | some s => rw [hfind] at hfp; cases hfp; rfl
    · cases hfp
  · obtain ⟨p, _, hfp⟩ := List.mem_filterMap.mp hrq
    unfold req_edge_for at hfp
    split at hfp
    · cases hfind : find_clause_node_by_id r (.str p.2.parent_clause)
          p.2.document_id with
      | none => rw [hfind] at hfp; cases hfp
      | some par => rw [hfind] at hfp; cases hfp; rfl
    · cases hfp

/-- A similarity edge never carries the REFERENCES relationship. -/
theorem sem_not_ref (cl : List Node) (thr : ℚ) (k : Nat) (e : Edge)
    (h : e ∈ detect_semantic_similarities cl thr k) :
    (e.2.2 == "REFERENCES") = false := by
  obtain ⟨c1, c2, _, _, heq⟩ := detect_mem cl thr k e h
  rw [heq]
  rfl

/-- Every edge of a run's cross-reference phase carries the REFERENCES
relationship. -/
theorem crossrun_is_ref (r : Registry) (docs : List String)
    (ord : List String → List String) (e : Edge)
    (h : e ∈ detect_cross_references_run r docs ord) :
    (e.2.2 == "REFERENCES") = true := by
  unfold detect_cross_references_run at h
  rw [List.mem_flatten] at h
  obtain ⟨l1, hl1, hel1⟩ := h
  obtain ⟨node, _, hnode⟩ := List.mem_map.mp hl1
  rw [← hnode, List.mem_flatten] at hel1
  obtain ⟨l2, hl2, hel2⟩ := hel1
  obtain ⟨ref, _, href⟩ := List.mem_map.mp hl2
  rw [← href] at hel2
  obtain ⟨d, _, hd⟩ := List.mem_filterMap.mp hel2
  split at hd
  · cases hd; rfl
  · cases hd

/-- Flattening pointwise-permuted blocks yields permuted lists. -/
theorem flatten_map_perm {α β : Type} (f1 f2 : α → List β) (l : List α)
    (h : ∀ a, List.Perm (f1 a) (f2 a)) :
    List.Perm (l.map f1).flatten (l.map f2).flatten := by
  induction l with
  | nil => exact List.Perm.refl _
  | cons a rest ih =>
    simp only [List.map_cons, List.flatten_cons]
    exact List.Perm.append (h a) ih

/-- Two runs whose set-iteration orders are permutations of each other
emit the same REFERENCES edges up to permutation. -/
theorem detect_cross_run_perm (r : Registry) (docs : List String)
    (ord1 ord2 : List String → List String)
    (h : ∀ l, List.Perm (ord1 l) (ord2 l)) :
    List.Perm (detect_cross_references_run r docs ord1)
      (detect_cross_references_run r docs ord2) := by
  unfold detect_cross_references_run
  apply flatten_map_perm
  intro node
  exact List.Perm.flatten (List.Perm.map _ (h (raw_refs node.full_text)))

/-- The one-document, one-chunk corpus for the C8 counterexample. -/
def c8Corpus : List DocumentDir :=
  [⟨"D", [{ chunk_id := "1", document_id := "D", content := ["sample text"] }]⟩]

/-- A corpus whose citing clause holds two accepted citations: document
directories `50173` and `50174-2` (letterless names, which the
containment heuristic does accept), and one clause citing both. -/
def refCorpus : List DocumentDir :=
  [⟨"50173",
    [{ chunk_id := "1", document_id := "50173",
       content := ["see EN 50174-2 and EN 50173"] }]⟩,
   ⟨"50174-2",
    [{ chunk_id := "1", document_id := "50174-2",
       content := ["entirely different topic words"] }]⟩]

/-- The reversed set-iteration order: lists the same distinct elements
as first-encounter order, reversed — a legitimate set order. -/
def revOrder (l : List String) : List String := (dedupFirst l).reverse

/-- Counterexample to claim C8 as stated: two runs on identical input
can differ both in a node field — each run stores its own wall-clock
timestamp in the Standard node's `created_at` — and in the edge
sequence, because a clause with two accepted citations emits its
REFERENCES edges in the iteration order of a hash-randomized set: the
first-encounter order and the reversed order (both legitimate set
orders) yield different sequences. -/
theorem claim_c8_counterexample :
    ((build_graph "2024-01-01T10:00:00" c8Corpus).2.1.values
      ≠ (build_graph "2024-01-01T10:00:01" c8Corpus).2.1.values)
    ∧ (build_graph_run "T" dedupFirst refCorpus).2.2
        ≠ (build_graph_run "T" revOrder refCorpus).2.2 := by decide

/-- Claim C8, amended: a run is a wall-clock timestamp together with a
set-iteration order (any listing of each citation set's distinct
elements, as Python's hash-randomized sets produce).  Two runs on
identical input directory contents produce the same success flag,
identical node ids, node records identical except for the Standard
nodes' run-timestamp `created_at` field, an identical subsequence of
non-REFERENCES edges (the structural and SIMILAR_TO edges, in
identical order), and the same REFERENCES edges up to the permutation
induced by the two set-iteration orders — so the full edge sequences
are permutations of each other, and are identical whenever the two
runs share one set-iteration order. -/
theorem claim_c8_determinism (input : List DocumentDir) (t1 t2 : String)
    (ord1 ord2 : List String → List String)
    (h1 : ∀ l, List.Perm (ord1 l) (dedupFirst l))
    (h2 : ∀ l, List.Perm (ord2 l) (dedupFirst l)) :
    (build_graph_run t1 ord1 input).1 = (build_graph_run t2 ord2 input).1
    ∧ ((build_graph_run t1 ord1 input).2.1).map Prod.fst
        = ((build_graph_run t2 ord2 input).2.1).map Prod.fst
    ∧ (Registry.values (build_graph_run t1 ord1 input).2.1).map scrub
        = (Registry.values (build_graph_run t2 ord2 input).2.1).map scrub
    ∧ ((build_graph_run t1 ord1 input).2.2).filter
        (fun e => !(e.2.2 == "REFERENCES"))
        = ((build_graph_run t2 ord2 input).2.2).filter
          (fun e => !(e.2.2 == "REFERENCES"))
    ∧ List.Perm
        (((build_graph_run t1 ord1 input).2.2).filter
          (fun e => e.2.2 == "REFERENCES"))
        (((build_graph_run t2 ord2 input).2.2).filter
          (fun e => e.2.2 == "REFERENCES"))
    ∧ List.Perm ((build_graph_run t1 ord1 input).2.2)
        ((build_graph_run t2 ord2 input).2.2)
    ∧ (ord1 = ord2 →
        (build_graph_run t1 ord1 input).2.2 = (build_graph_run t2 ord2 input).2.2) := by
  by_cases h0 : ((allChunksOf input).length == 0) = true
  · simp [build_graph_run, h0]
  · simp only [build_graph_run]
    rw [if_neg h0, if_neg h0]
    dsimp only
    have hscrub : ∀ t : String,
        (build_requirement_nodes (allChunksOf input)
          (build_clause_nodes (allChunksOf input)
            (build_standard_nodes t (input.map DocumentDir.name) []))).map scrubEntry
        = build_requirement_nodes (allChunksOf input)
            (build_clause_nodes (allChunksOf input)
              (build_standard_nodes "" (input.map DocumentDir.name) [])) := by
      intro t
      rw [build_requirement_nodes_scrub, build_clause_nodes_scrub,
        build_standard_nodes_scrub]
      rfl
    have hkeys : ∀ t : String,
        (build_requirement_nodes (allChunksOf input)
          (build_clause_nodes (allChunksOf input)
            (build_standard_nodes t (input.map DocumentDir.name) []))).map Prod.fst
        = (build_requirement_nodes (allChunksOf input)
            (build_clause_nodes (allChunksOf input)
              (build_standard_nodes "" (input.map DocumentDir.name) []))).map
            Prod.fst := by
      intro t
      rw [← hscrub t, List.map_map]
      rfl
    have hvals : ∀ t : String,
        ((build_requirement_nodes (allChunksOf input)
          (build_clause_nodes (allChunksOf input)
            (build_standard_nodes t (input.map DocumentDir.name) []))).values).map scrub
        = ((build_requirement_nodes (allChunksOf input)
            (build_clause_nodes (allChunksOf input)
              (build_standard_nodes "" (input.map DocumentDir.name) []))).values) := by
      intro t
      rw [← hscrub t]
      unfold Registry.values
      rw [List.map_map, List.map_map]
      rfl
    have hE1 : ∀ t : String,
        build_structural_edges (build_requirement_nodes (allChunksOf input)
          (build_clause_nodes (allChunksOf input)
            (build_standard_nodes t (input.map DocumentDir.name) [])))
        = build_structural_edges (build_requirement_nodes (allChunksOf input)
            (build_clause_nodes (allChunksOf input)
              (build_standard_nodes "" (input.map DocumentDir.name) []))) := by
      intro t
      rw [← build_structural_scrub, hscrub t]
    have hE2 : ∀ (t : String) (ord : List String → List String),
        detect_cross_references_run (build_requirement_nodes (allChunksOf input)
          (build_clause_nodes (allChunksOf input)
            (build_standard_nodes t (input.map DocumentDir.name) [])))
          (input.map DocumentDir.name) ord
        = detect_cross_references_run (build_requirement_nodes (allChunksOf input)
            (build_clause_nodes (allChunksOf input)
              (build_standard_nodes "" (input.map DocumentDir.name) [])))
            (input.map DocumentDir.name) ord := by
      intro t ord
      rw [← detect_cross_run_scrub, hscrub t]
    have hE3 : ∀ t : String,
        detect_semantic_similarities
          (clausesOf (build_requirement_nodes (allChunksOf input)
            (build_clause_nodes (allChunksOf input)
              (build_standard_nodes t (input.map DocumentDir.name) []))))
          (mkRat 3 10) 200
        = detect_semantic_similarities
            (clausesOf (build_requirement_nodes (allChunksOf input)
              (build_clause_nodes (allChunksOf input)
                (build_standard_nodes "" (input.map DocumentDir.name) []))))
            (mkRat 3 10) 200 := by
      intro t
      have hcls : clausesOf (build_requirement_nodes (allChunksOf input)
            (build_clause_nodes (allChunksOf input)
              (build_standard_nodes "" (input.map DocumentDir.name) [])))
            = (clausesOf (build_requirement_nodes (allChunksOf input)
                (build_clause_nodes (allChunksOf input)
                  (build_standard_nodes t (input.map DocumentDir.name) [])))).map
                scrub := by
        unfold clausesOf
        rw [← hscrub t, clause_list_scrub]
      rw [hcls, detect_sem_scrub]
    have hE2perm : List.Perm
        (detect_cross_references_run (build_requirement_nodes (allChunksOf input)
          (build_clause_nodes (allChunksOf input)
            (build_standard_nodes "" (input.map DocumentDir.name) [])))
          (input.map DocumentDir.name) ord1)
        (detect_cross_references_run (build_requirement_nodes (allChunksOf input)
          (build_clause_nodes (allChunksOf input)
            (build_standard_nodes "" (input.map DocumentDir.name) [])))
          (input.map DocumentDir.name) ord2) :=
      detect_cross_run_perm _ _ ord1 ord2 (fun l => (h1 l).trans (h2 l).symm)
    have hfE1 : ∀ t : String,
        (build_structural_edges (build_requirement_nodes (allChunksOf input)
          (build_clause_nodes (allChunksOf input)
            (build_standard_nodes t (input.map DocumentDir.name) [])))).filter
          (fun e => !(e.2.2 == "REFERENCES"))
        = build_structural_edges (build_requirement_nodes (allChunksOf input)
            (build_clause_nodes (allChunksOf input)
              (build_standard_nodes t (input.map DocumentDir.name) []))) := by
      intro t
      refine List.filter_eq_self.mpr (fun e he => ?_)
      rw [structural_not_ref _ _ he]
      rfl
    have hfE2 : ∀ (t : String) (ord : List String → List String),
        (detect_cross_references_run (build_requirement_nodes (allChunksOf input)
          (build_clause_nodes (allChunksOf input)
            (build_standard_nodes t (input.map DocumentDir.name) [])))
          (input.map DocumentDir.name) ord).filter
          (fun e => !(e.2.2 == "REFERENCES")) = [] := by
      intro t ord
      refine List.filter_eq_nil_iff.mpr (fun e he => ?_)
      rw [crossrun_is_ref _ _ _ _ he]
      simp
    have hfE3 : ∀ t : String,
        (detect_semantic_similarities
          (clausesOf (build_requirement_nodes (allChunksOf input)
            (build_clause_nodes (allChunksOf input)
              (build_standard_nodes t (input.map DocumentDir.name) []))))
          (mkRat 3 10) 200).filter (fun e => !(e.2.2 == "REFERENCES"))
        = detect_semantic_similarities
            (clausesOf (build_requirement_nodes (allChunksOf input)
              (build_clause_nodes (allChunksOf input)
                (build_standard_nodes t (input.map DocumentDir.name) []))))
            (mkRat 3 10) 200 := by
      intro t
      refine List.filter_eq_self.mpr (fun e he => ?_)
      rw [sem_not_ref _ _ _ _ he]
      rfl
    have hgE1 : ∀ t : String,
        (build_structural_edges (build_requirement_nodes (allChunksOf input)
          (build_clause_nodes (allChunksOf input)
            (build_standard_nodes t (input.map DocumentDir.name) [])))).filter
          (fun e => e.2.2 == "REFERENCES") = [] := by
      intro t
      refine List.filter_eq_nil_iff.mpr (fun e he => ?_)
      rw [structural_not_ref _ _ he]
      simp
    have hgE2 : ∀ (t : String) (ord : List String → List String),
        (detect_cross_references_run (build_requirement_nodes (allChunksOf input)
          (build_clause_nodes (allChunksOf input)
            (build_standard_nodes t (input.map DocumentDir.name) [])))
          (input.map DocumentDir.name) ord).filter
          (fun e => e.2.2 == "REFERENCES")
        = detect_cross_references_run (build_requirement_nodes (allChunksOf input)
            (build_clause_nodes (allChunksOf input)
              (build_standard_nodes t (input.map DocumentDir.name) [])))
            (input.map DocumentDir.name) ord := by
      intro t ord
      exact List.filter_eq_self.mpr (fun e he => crossrun_is_ref _ _ _ _ he)
    have hgE3 : ∀ t : String,
        (detect_semantic_similarities
          (clausesOf (build_requirement_nodes (allChunksOf input)
            (build_clause_nodes (allChunksOf input)
              (build_standard_nodes t (input.map DocumentDir.name) []))))
          (mkRat 3 10) 200).filter (fun e => e.2.2 == "REFERENCES") = [] := by
      intro t
      refine List.filter_eq_nil_iff.mpr (fun e he => ?_)
      rw [sem_not_ref _ _ _ _ he]
      simp
    refine ⟨rfl, by rw [hkeys t1, hkeys t2], by rw [hvals t1, hvals t2],
      ?_, ?_, ?_, ?_⟩
    · rw [List.filter_append, List.filter_append, List.filter_append,
        List.filter_append, hfE1 t1, hfE1 t2, hfE2 t1 ord1, hfE2 t2 ord2,
        hfE3 t1, hfE3 t2, hE1 t1, hE1 t2, hE3 t1, hE3 t2]
    · rw [List.filter_append, List.filter_append, List.filter_append,
        List.filter_append, hgE1 t1, hgE1 t2, hgE2 t1 ord1, hgE2 t2 ord2,
        hgE3 t1, hgE3 t2, hE2 t1 ord1, hE2 t2 ord2]
      simp only [List.nil_append, List.append_nil]
      exact hE2perm
    · rw [hE1 t1, hE1 t2, hE2 t1 ord1, hE2 t2 ord2, hE3 t1, hE3 t2]
      exact List.Perm.append_right _ (List.Perm.append_left _ hE2perm)
    · intro hoo
      rw [hE1 t1, hE1 t2, hE2 t1 ord1, hE2 t2 ord2, hE3 t1, hE3 t2, hoo]

/-- Witness for C8 at concrete inputs: the two-citation corpus run at
two timestamps, once in first-encounter order and once in reversed set
order. -/
theorem claim_c8_witness :
    (build_graph_run "T1" dedupFirst refCorpus).1
      = (build_graph_run "T2" revOrder refCorpus).1
    ∧ ((build_graph_run "T1" dedupFirst refCorpus).2.1).map Prod.fst
        = ((build_graph_run "T2" revOrder refCorpus).2.1).map Prod.fst
    ∧ (Registry.values (build_graph_run "T1" dedupFirst refCorpus).2.1).map scrub
        = (Registry.values (build_graph_run "T2" revOrder refCorpus).2.1).map scrub
    ∧ ((build_graph_run "T1" dedupFirst refCorpus).2.2).filter
        (fun e => !(e.2.2 == "REFERENCES"))
        = ((build_graph_run "T2" revOrder refCorpus).2.2).filter
          (fun e => !(e.2.2 == "REFERENCES"))
    ∧ List.Perm
        (((build_graph_run "T1" dedupFirst refCorpus).2.2).filter
          (fun e => e.2.2 == "REFERENCES"))
        (((build_graph_run "T2" revOrder refCorpus).2.2).filter
          (fun e => e.2.2 == "REFERENCES"))
    ∧ List.Perm ((build_graph_run "T1" dedupFirst refCorpus).2.2)
        ((build_graph_run "T2" revOrder refCorpus).2.2)
    ∧ (dedupFirst = revOrder →
        (build_graph_run "T1" dedupFirst refCorpus).2.2
          = (build_graph_run "T2" revOrder refCorpus).2.2) :=
  claim_c8_determinism refCorpus "T1" "T2" dedupFirst revOrder
    (fun l => List.Perm.refl (dedupFirst l))
    (fun l => List.reverse_perm (dedupFirst l))

end AGB
